import Mathlib

/-!
Shallow embedding of the address-book program (src/src/project-main.py).

The program is a single-file, single-threaded Python contact manager.  Its
mutable objects (Record, AddressBook) are embedded as immutable Lean
structures, and every operation that mutates an object in place is embedded
as a function returning the updated value.  Python exceptions (ValueError,
KeyError, IndexError) are embedded with an Except monad; an operation that
raises is a function returning an error value, and since the embedding is
pure, an operation that returns an error by construction leaves every
previously built value untouched.

Python datetime.date values are embedded as year/month/day triples together
with the standard proleptic-Gregorian day-number conversions, so that
timedelta addition and weekday computation follow the same calendar as
CPython.  The parameter named today stands for datetime.today().date().
-/

/-! ## Calendar model (CPython datetime.date) -/

/-- Gregorian leap-year rule, as used by Python datetime. -/
def isLeap (y : Int) : Bool :=
  y % 4 == 0 && (y % 100 != 0 || y % 400 == 0)

def daysInMonth (y : Int) (m : Nat) : Nat :=
  if m = 2 then (if isLeap y then 29 else 28)
  else if m = 4 ∨ m = 6 ∨ m = 9 ∨ m = 11 then 30
  else 31

/-- A Python datetime.date value (fields as stored by CPython). -/
structure Date where
  year : Int
  month : Nat
  day : Nat
deriving DecidableEq

/-- A (year, month, day) triple is accepted by the datetime.date
constructor: real calendar date with MINYEAR = 1 and MAXYEAR = 9999. -/
def validDate (y : Int) (m d : Nat) : Bool :=
  1 ≤ y && y ≤ 9999 && 1 ≤ m && m ≤ 12 && 1 ≤ d && d ≤ daysInMonth y m

def Date.Valid (dt : Date) : Prop := validDate dt.year dt.month dt.day = true

/-- Day number of a date (days since 1970-01-01, proleptic Gregorian);
the standard civil-calendar conversion used to model timedelta arithmetic. -/
def toRataDie (dt : Date) : Int :=
  let y : Int := if dt.month ≤ 2 then dt.year - 1 else dt.year
  let m : Int := dt.month
  let d : Int := dt.day
  let era : Int := y.fdiv 400
  let yoe : Int := y - era * 400
  let doy : Int := (153 * (m + (if m > 2 then -3 else 9)) + 2).fdiv 5 + d - 1
  let doe : Int := yoe * 365 + yoe.fdiv 4 - yoe.fdiv 100 + doy
  era * 146097 + doe - 719468

/-- Inverse of toRataDie: the date a given day number falls on. -/
def fromRataDie (z0 : Int) : Date :=
  let z := z0 + 719468
  let era := z.fdiv 146097
  let doe := z - era * 146097
  let yoe := (doe - doe.fdiv 1460 + doe.fdiv 36524 - doe.fdiv 146096).fdiv 365
  let y := yoe + era * 400
  let doy := doe - (365 * yoe + yoe.fdiv 4 - yoe.fdiv 100)
  let mp := (5 * doy + 2).fdiv 153
  let d := doy - (153 * mp + 2).fdiv 5 + 1
  let m := mp + (if mp < 10 then 3 else -9)
  { year := y + (if m ≤ 2 then 1 else 0), month := m.toNat, day := d.toNat }

/-- Python date + timedelta(days = n). -/
def addDays (d : Date) (n : Int) : Date := fromRataDie (toRataDie d + n)

/-- Python date.weekday(): Monday = 0, ..., Saturday = 5, Sunday = 6.
1970-01-01 (day number 0) was a Thursday (= 3). -/
def weekdayOf (d : Date) : Int := (toRataDie d + 3).emod 7

/-- Python date ordering (chronological; on the stored fields this is
lexicographic year, month, day). -/
def dateLtB (a b : Date) : Bool :=
  a.year < b.year ||
  (a.year == b.year && (a.month < b.month ||
    (a.month == b.month && a.day < b.day)))

/-! ## Decimal digit strings (strftime / strptime with format %d.%m.%Y) -/

def isAsciiDigit (c : Char) : Bool := '0' ≤ c && c ≤ '9'

def digitChar : Nat → Char
  | 0 => '0' | 1 => '1' | 2 => '2' | 3 => '3' | 4 => '4'
  | 5 => '5' | 6 => '6' | 7 => '7' | 8 => '8' | 9 => '9'
  | _ => '*'

/-- Numeric value of a digit string (most significant first). -/
def digitsVal (l : List Char) : Nat :=
  l.foldl (fun a c => a * 10 + (c.toNat - 48)) 0

/-- Two-digit zero-padded decimal (strftime %d and %m; fields are < 100). -/
def pad2 (n : Nat) : List Char := [digitChar (n / 10 % 10), digitChar (n % 10)]

/-- Four-digit zero-padded decimal (strftime %Y; datetime years are ≤ 9999). -/
def pad4 (n : Nat) : List Char :=
  [digitChar (n / 1000 % 10), digitChar (n / 100 % 10),
   digitChar (n / 10 % 10), digitChar (n % 10)]

def formatChars (d : Date) : List Char :=
  pad2 d.day ++ '.' :: (pad2 d.month ++ '.' :: pad4 d.year.toNat)

/-- Python strftime("%d.%m.%Y") on a date. -/
def formatDate (d : Date) : String := ⟨formatChars d⟩

/-- Greedy scan of at most k leading ASCII digits (the numeric-field scan
of strptime); returns the digits read and the rest of the input. -/
def readDigits : Nat → List Char → (List Char × List Char)
  | 0, cs => ([], cs)
  | _ + 1, [] => ([], [])
  | k + 1, c :: cs =>
    if isAsciiDigit c then
      let p := readDigits k cs
      (c :: p.1, p.2)
    else ([], c :: cs)

/-- Python datetime.strptime(s, "%d.%m.%Y") followed by the date validity
check: day (1-2 digits), literal dot, month (1-2 digits), literal dot,
year (1-4 digits), end of input; the numbers must form a real date. -/
def parseDateChars (cs : List Char) : Option Date :=
  let pd := readDigits 2 cs
  if pd.1.isEmpty then none else
  match pd.2 with
  | '.' :: cs1 =>
    let pm := readDigits 2 cs1
    if pm.1.isEmpty then none else
    match pm.2 with
    | '.' :: cs2 =>
      let py := readDigits 4 cs2
      if py.1.isEmpty then none else
      if py.2.isEmpty then
        let d := digitsVal pd.1
        let m := digitsVal pm.1
        let y := digitsVal py.1
        if validDate (Int.ofNat y) m d then some ⟨Int.ofNat y, m, d⟩ else none
      else none
    | _ => none
  | _ => none

def parseDate (s : String) : Option Date := parseDateChars s.data

/-! ## Python string helpers used by the program -/

/-- Python str.lower, modelled on the ASCII letters (the program only
compares search queries and stored field text with it). -/
def pyLower (s : String) : String := ⟨s.data.map Char.toLower⟩

/-- Python str.strip() whitespace set (ASCII portion). -/
def isPyWs (c : Char) : Bool :=
  c == ' ' || c == '\t' || c == '\n' || c == '\r' || c == '\x0b' || c == '\x0c'

def stripChars (cs : List Char) : List Char :=
  ((cs.dropWhile isPyWs).reverse.dropWhile isPyWs).reverse

/-- Python str.strip(). -/
def pyStrip (s : String) : String := ⟨stripChars s.data⟩

/-- value.strip().lower(), the normalization in the Email constructor. -/
def pyStripLower (s : String) : String := pyLower (pyStrip s)

/-- Python substring test: needle in hay. -/
def startsWithChars : List Char → List Char → Bool
  | [], _ => true
  | _ :: _, [] => false
  | c :: cs, h :: hs => c == h && startsWithChars cs hs

def containsChars (needle : List Char) : List Char → Bool
  | [] => needle.isEmpty
  | c :: hs => startsWithChars needle (c :: hs) || containsChars needle hs

/-- Python needle in hay for strings. -/
def containsSub (hay needle : String) : Bool := containsChars needle.data hay.data

/-- Python string < : lexicographic comparison of code points. -/
def charListLt : List Char → List Char → Bool
  | [], [] => false
  | [], _ :: _ => true
  | _ :: _, [] => false
  | a :: as, b :: bs => a < b || (a == b && charListLt as bs)

def strLtB (a b : String) : Bool := charListLt a.data b.data

/-- Python string ≤ (the order used by list.sort on the name keys). -/
def strLeB (a b : String) : Bool := !(strLtB b a)

/-! ## Errors -/

/-- The Python exception kinds the program raises and handles. -/
inductive PyError where
  | valueError (msg : String)
  | keyError (msg : String)
  | indexError (msg : String)
deriving DecidableEq

def exceptOk {α : Type} (e : Except PyError α) : Bool :=
  match e with
  | .ok _ => true
  | .error _ => false

/-! ## Field validators and constructors -/

/-- Modelled from CPython str.isdigit: true when the character has Unicode
numeric type Decimal or Digit.  The full Unicode table is large; this
model covers the ASCII digits exactly and, of the non-ASCII digit
characters CPython accepts, the blocks used in this development
(superscript one/two/three, Arabic-Indic, extended Arabic-Indic,
Devanagari, superscript zero and four to nine, subscripts, fullwidth).
Every character appearing in this file is classified as CPython does. -/
def pyIsDigit (c : Char) : Bool :=
  let n := c.toNat
  (48 ≤ n && n ≤ 57) ||
  (n == 178 || n == 179 || n == 185) ||
  (1632 ≤ n && n ≤ 1641) ||
  (1776 ≤ n && n ≤ 1785) ||
  (2406 ≤ n && n ≤ 2415) ||
  (n == 8304 || (8308 ≤ n && n ≤ 8313)) ||
  (8320 ≤ n && n ≤ 8329) ||
  (65296 ≤ n && n ≤ 65305)

/-- Phone.validate: value.isdigit() and len(value) == 10.
(str.isdigit is false on the empty string.) -/
def Phone.validate (s : String) : Bool :=
  (!s.data.isEmpty && s.data.all pyIsDigit) && s.data.length == 10

/-- Phone(value): validate, else raise ValueError. -/
def mkPhone (s : String) : Except PyError String :=
  if Phone.validate s then .ok s
  else .error (.valueError "Phone number must contain 10 digits. Use format like 0931112233.")

def isLocalChar (c : Char) : Bool :=
  c.isAlpha || c.isDigit || c == '.' || c == '_' || c == '%' || c == '+' || c == '-'

def isDomainChar (c : Char) : Bool :=
  c.isAlpha || c.isDigit || c == '.' || c == '-'

def isAsciiAlpha (c : Char) : Bool :=
  ('a' ≤ c && c ≤ 'z') || ('A' ≤ c && c ≤ 'Z')

/-- A Python regex dollar anchor also matches just before one final
newline; re.match(pattern, v) therefore ignores a single trailing newline. -/
def dropFinalNewline (cs : List Char) : List Char :=
  match cs.reverse with
  | '\n' :: t => t.reverse
  | _ => cs

/-- Email.validate: re.match(r (caret)[a-zA-Z0-9._%+-]+@[a-zA-Z0-9.-]+\.[a-zA-Z]\x7b2,\x7d(dollar), value).
The pattern matches exactly when the string splits as local@domain.tld with
nonempty local of local-characters, the text after the last dot a run of at
least two ASCII letters, and a nonempty run of domain-characters between
the at sign and that last dot. -/
def Email.validate (s : String) : Bool :=
  match (dropFinalNewline s.data).splitOn '@' with
  | [l, d] =>
    !l.isEmpty && l.all isLocalChar &&
    (let r := d.reverse
     let run := r.takeWhile isAsciiAlpha
     match r.drop run.length with
     | '.' :: rest => decide (2 ≤ run.length) && !rest.isEmpty && rest.all isDomainChar
     | _ => false)
  | _ => false

/-- Email(value): value = value.strip().lower(); validate, else ValueError. -/
def mkEmail (s : String) : Except PyError String :=
  let v := pyStripLower s
  if Email.validate v then .ok v
  else .error (.valueError "Invalid email format. Must contain '@' and domain.")

/-- Address.validate: nonempty after strip. -/
def Address.validate (s : String) : Bool := !(stripChars s.data).isEmpty

/-- Address(value): validate, else ValueError. -/
def mkAddress (s : String) : Except PyError String :=
  if Address.validate s then .ok s
  else .error (.valueError "Address cannot be empty.")

/-- Birthday(value): datetime.strptime(value, "%d.%m.%Y"), else ValueError. -/
def mkBirthday (s : String) : Except PyError Date :=
  match parseDate s with
  | some d => .ok d
  | none => .error (.valueError "Invalid date format. Use DD.MM.YYYY")

/-! ## Record -/

/-- A contact record.  Field objects are embedded by their stored values:
Name/Phone/Email/Address carry their string value, Birthday the parsed
date. -/
structure Record where
  name : String
  phones : List String
  email : Option String
  address : Option String
  birthday : Option Date
deriving DecidableEq

/-- Record.__init__(name): Name performs no validation (it is a bare Field
subclass), so construction is total and stores the name unchanged. -/
def record_init (name : String) : Record :=
  { name := name, phones := [], email := none, address := none, birthday := none }

/-- Record.add_phone: phones.append(Phone(phone)). -/
def Record.add_phone (r : Record) (s : String) : Except PyError Record := do
  let p ← mkPhone s
  .ok { r with phones := r.phones ++ [p] }

/-- Record.find_phone: first stored phone whose value equals the argument. -/
def Record.find_phone (r : Record) (phone : String) : Option String :=
  r.phones.find? (fun p => p == phone)

/-- list.index of the first element equal to x (defined for present x). -/
def listIndex (x : String) : List String → Nat
  | [] => 0
  | y :: ys => if y == x then 0 else listIndex x ys + 1

/-- Record.edit_phone: find_phone(old); if found, validate new and assign
phones[index] = Phone(new), else ValueError; if not found, ValueError. -/
def Record.edit_phone (r : Record) (old new : String) : Except PyError Record :=
  match r.find_phone old with
  | some _ =>
    if Phone.validate new then
      .ok { r with phones := r.phones.set (listIndex old r.phones) new }
    else
      .error (.valueError "New phone number must contain 10 digits. Use format like 0931112233.")
  | none => .error (.valueError ("Phone number " ++ old ++ " not found"))

/-- Record.add_email: self.email = Email(email). -/
def Record.add_email (r : Record) (s : String) : Except PyError Record := do
  let e ← mkEmail s
  .ok { r with email := some e }

/-- Record.add_address: self.address = Address(address). -/
def Record.add_address (r : Record) (s : String) : Except PyError Record := do
  let a ← mkAddress s
  .ok { r with address := some a }

/-- Record.add_birthday: self.birthday = Birthday(birthday). -/
def Record.add_birthday (r : Record) (s : String) : Except PyError Record := do
  let b ← mkBirthday s
  .ok { r with birthday := some b }

/-- The plain dictionary produced by Record.to_dict (JSON object shape). -/
structure PortableRecord where
  name : String
  phones : List String
  email : Option String
  address : Option String
  birthday : Option String
deriving DecidableEq

/-- Record.to_dict: name, phone values, email/address values or None,
birthday rendered with strftime("%d.%m.%Y") or None. -/
def Record.to_dict (r : Record) : PortableRecord :=
  { name := r.name
    phones := r.phones
    email := r.email
    address := r.address
    birthday := r.birthday.map formatDate }

/-- Python truthiness of data.get(key): None and the empty string are
falsy, any other string is truthy. -/
def truthy (o : Option String) : Option String :=
  match o with
  | some s => if s = "" then none else some s
  | none => none

/-- Record.from_dict: Record(name); add each phone; add email, address,
birthday when the stored value is truthy (each re-running its validator). -/
def Record.from_dict (d : PortableRecord) : Except PyError Record := do
  let r := record_init d.name
  let r ← d.phones.foldlM Record.add_phone r
  let r ← match truthy d.email with
          | some e => r.add_email e
          | none => pure r
  let r ← match truthy d.address with
          | some a => r.add_address a
          | none => pure r
  let r ← match truthy d.birthday with
          | some b => r.add_birthday b
          | none => pure r
  .ok r

/-- The construction invariant of a record: every stored phone passed
Phone.validate, a stored email passed Email.validate and is fixed by the
strip-lower normalization of the Email constructor, a stored address
passed Address.validate, and a stored birthday is a real datetime date. -/
def ValidRecordB (r : Record) : Bool :=
  r.phones.all Phone.validate &&
  (match r.email with
   | some e => Email.validate e && (pyStripLower e == e)
   | none => true) &&
  (match r.address with
   | some a => Address.validate a
   | none => true) &&
  (match r.birthday with
   | some b => validDate b.year b.month b.day
   | none => true)

/-! ## AddressBook -/

/-- The address book: a dict from name to record, embedded as the list of
records in dict (insertion) order; the name key of each entry is the name
stored in the record (AddressBook.add_record keys by record.name.value). -/
abbrev AddressBook := List Record

/-- AddressBook.find: self.data.get(name); first record stored under the
name. -/
def bookFind (book : AddressBook) (name : String) : Option Record :=
  book.find? (fun r => r.name == name)

/-- In-place mutation (or dict re-assignment) of the record stored under a
name: the entry keeps its position. -/
def updateFirst : AddressBook → String → Record → AddressBook
  | [], _, _ => []
  | r :: rs, n, r1 => if r.name == n then r1 :: rs else r :: updateFirst rs n r1

/-- AddressBook.add_record: self.data[record.name.value] = record; an
existing key keeps its position, a new key is appended. -/
def add_record (book : AddressBook) (r : Record) : AddressBook :=
  match bookFind book r.name with
  | some _ => updateFirst book r.name r
  | none => book ++ [r]

/-- One entry of the get_birthdays_in_days result list. -/
structure BEntry where
  name : String
  congratulation_date : String
deriving DecidableEq

/-- bday.replace(year = y): keeps month and day, raises ValueError when the
resulting triple is not a valid date (Feb 29 in a non-leap year). -/
def replaceYearE (d : Date) (y : Int) : Except PyError Date :=
  if validDate y d.month d.day then .ok ⟨y, d.month, d.day⟩
  else .error (.valueError "day is out of range for month")

/-- The occurrence of a stored birthday used by get_birthdays_in_days:
bday.replace(year = today.year), and when that is before today,
bday_this_year.replace(year = today.year + 1). -/
def occurrenceOf (b today : Date) : Except PyError Date := do
  let bty ← replaceYearE b today.year
  if dateLtB bty today then replaceYearE bty (today.year + 1) else pure bty

/-- The weekend adjustment on the matched date: Saturday (5) moves two days
forward, Sunday (6) one day forward, to the following Monday. -/
def weekendAdjust (d : Date) : Date :=
  if weekdayOf d == 5 then addDays d 2
  else if weekdayOf d == 6 then addDays d 1
  else d

/-- The record loop of get_birthdays_in_days: skip records without a
birthday, compute the occurrence (propagating a ValueError from replace),
and append an entry whenever the occurrence equals the target date. -/
def collectB (today target : Date) : List Record → Except PyError (List BEntry)
  | [] => .ok []
  | r :: rs =>
    match r.birthday with
    | none => collectB today target rs
    | some b => do
      let occ ← occurrenceOf b today
      let rest ← collectB today target rs
      if occ = target then
        .ok (⟨r.name, formatDate (weekendAdjust occ)⟩ :: rest)
      else .ok rest

/-- AddressBook.get_birthdays_in_days(days): reject negative days with
ValueError; otherwise collect the records whose birthday occurrence equals
today + days and sort the entries by name (list.sort with the name as key,
a stable sort under the Python string order). -/
def get_birthdays_in_days (book : AddressBook) (today : Date) (days : Int) :
    Except PyError (List BEntry) :=
  if days < 0 then .error (.valueError "Number of days cannot be negative.")
  else
    (collectB today (addDays today days) book) >>= fun l =>
      .ok (List.insertionSort (fun a b : BEntry => strLeB a.name b.name = true) l)

/-- AddressBook.get_upcoming_birthdays: get_birthdays_in_days(7). -/
def get_upcoming_birthdays (book : AddressBook) (today : Date) :
    Except PyError (List BEntry) :=
  get_birthdays_in_days book today 7

/-- One record of the AddressBook.search loop: the branch chain over name,
phones (first match breaks), email, address and rendered birthday; a
matching branch appends the record once and continues with the next
record. -/
def searchGo (ql : String) : List Record → List Record
  | [] => []
  | r :: rs =>
    if containsSub (pyLower r.name) ql then r :: searchGo ql rs
    else if r.phones.any (fun p => containsSub p ql) then r :: searchGo ql rs
    else if (match r.email with
             | some e => containsSub (pyLower e) ql
             | none => false) then r :: searchGo ql rs
    else if (match r.address with
             | some a => containsSub (pyLower a) ql
             | none => false) then r :: searchGo ql rs
    else if (match r.birthday with
             | some b => containsSub (formatDate b) ql
             | none => false) then r :: searchGo ql rs
    else searchGo ql rs

/-- AddressBook.search(query): lower-case the query once, then run the
record loop in book (insertion) order. -/
def search (book : AddressBook) (q : String) : List Record :=
  searchGo (pyLower q) book

/-! ## Command handlers (the ones the claims mention) -/

/-- add_contact(args, book): on fewer than two arguments raise IndexError;
find the record by name, creating and inserting a fresh one when absent
(message Contact added, otherwise Contact updated); then, when the phone
argument is truthy, record.add_phone(phone).  The book state is threaded
explicitly: a record is inserted before the phone is validated, and a
ValueError from Phone leaves the book as it was at raise time. -/
def add_contact (args : List String) (book : AddressBook) :
    AddressBook × Except PyError String :=
  match args with
  | name :: phone :: _ =>
    match bookFind book name with
    | some r =>
      if phone = "" then (book, .ok "Contact updated.")
      else
        match mkPhone phone with
        | .ok p =>
          (updateFirst book name { r with phones := r.phones ++ [p] },
           .ok "Contact updated.")
        | .error e => (book, .error e)
    | none =>
      let r := record_init name
      let book1 := add_record book r
      if phone = "" then (book1, .ok "Contact added.")
      else
        match mkPhone phone with
        | .ok p =>
          (updateFirst book1 name { r with phones := [p] }, .ok "Contact added.")
        | .error e => (book1, .error e)
  | _ =>
    (book, .error (.indexError "Not enough arguments. Usage: add contact [name] [phone]"))

/-! ## Spec-side definition for the phone claim -/

/-- The phone acceptance set as the specification words it: exactly ten
characters, each an ASCII decimal digit. -/
def isTenAsciiDigits (s : String) : Bool :=
  s.data.length == 10 && s.data.all isAsciiDigit

/-! ## Order lemmas for the Python string comparison -/

lemma charListLt_asymm : ∀ as bs : List Char,
    charListLt as bs = true → charListLt bs as = false := by
  intro as
  induction as with
  | nil => intro bs _h; cases bs with
    | nil => rfl
    | cons b bs => rfl
  | cons a as ih =>
    intro bs h
    cases bs with
    | nil => simp [charListLt] at h
    | cons b bs =>
      simp only [charListLt, Bool.or_eq_true, Bool.and_eq_true, beq_iff_eq,
        decide_eq_true_eq] at h
      simp only [charListLt, Bool.or_eq_false_iff, Bool.and_eq_false_iff,
        beq_eq_false_iff_ne, ne_eq, decide_eq_false_iff_not, not_lt]
      rcases h with h | ⟨rfl, h⟩
      · exact ⟨le_of_lt h, Or.inl (ne_of_gt h)⟩
      · exact ⟨le_refl a, Or.inr (ih bs h)⟩

lemma charListLt_trans : ∀ as bs cs : List Char,
    charListLt as bs = true → charListLt bs cs = true → charListLt as cs = true := by
  intro as
  induction as with
  | nil =>
    intro bs cs hab hbc
    cases bs with
    | nil => simp [charListLt] at hab
    | cons b bs =>
      cases cs with
      | nil => simp [charListLt] at hbc
      | cons c cs => simp [charListLt]
  | cons a as ih =>
    intro bs cs hab hbc
    cases bs with
    | nil => simp [charListLt] at hab
    | cons b bs =>
      cases cs with
      | nil => simp [charListLt] at hbc
      | cons c cs =>
        simp only [charListLt, Bool.or_eq_true, Bool.and_eq_true, beq_iff_eq,
          decide_eq_true_eq] at hab hbc ⊢
        rcases hab with hab | ⟨rfl, hab⟩
        · rcases hbc with hbc | ⟨rfl, hbc⟩
          · exact Or.inl (lt_trans hab hbc)
          · exact Or.inl hab
        · rcases hbc with hbc | ⟨rfl, hbc⟩
          · exact Or.inl hbc
          · exact Or.inr ⟨rfl, ih bs cs hab hbc⟩

lemma charListLt_conn : ∀ as bs : List Char,
    charListLt as bs = false → charListLt bs as = false → as = bs := by
  intro as
  induction as with
  | nil => intro bs h _; cases bs with
    | nil => rfl
    | cons b bs => simp [charListLt] at h
  | cons a as ih =>
    intro bs h h2
    cases bs with
    | nil => simp [charListLt] at h2
    | cons b bs =>
      simp only [charListLt, Bool.or_eq_false_iff, Bool.and_eq_false_iff,
        beq_eq_false_iff_ne, ne_eq, decide_eq_false_iff_not, not_lt] at h h2
      obtain ⟨hab, hab2⟩ := h
      obtain ⟨hba, hba2⟩ := h2
      have hx : a = b := le_antisymm hba hab
      subst hx
      rcases hab2 with hne | hrec
      · exact absurd rfl hne
      · rcases hba2 with hne | hrec2
        · exact absurd rfl hne
        · rw [ih bs hrec hrec2]


lemma strLeB_total (a b : String) : strLeB a b = true ∨ strLeB b a = true := by
  unfold strLeB strLtB
  by_cases h : charListLt b.data a.data = true
  · right
    rw [charListLt_asymm _ _ h]
    rfl
  · left
    rw [Bool.not_eq_true] at h
    rw [h]
    rfl

lemma strLeB_trans (a b c : String) (hab : strLeB a b = true) (hbc : strLeB b c = true) :
    strLeB a c = true := by
  unfold strLeB strLtB at hab hbc ⊢
  rw [Bool.not_eq_eq_eq_not, Bool.not_true] at hab hbc ⊢
  by_contra hca
  rw [Bool.not_eq_false] at hca
  by_cases hbc2 : charListLt b.data c.data = true
  · exact absurd (charListLt_trans _ _ _ hbc2 hca) (by simp [hab])
  · rw [Bool.not_eq_true] at hbc2
    have hbceq : b.data = c.data := charListLt_conn _ _ hbc2 hbc
    rw [← hbceq] at hca
    exact absurd hca (by simp [hab])

/-! ## Digit-string lemmas -/

lemma digitChar_toNat {k : Nat} (h : k < 10) : (digitChar k).toNat = 48 + k := by
  interval_cases k <;> rfl

lemma isAsciiDigit_digitChar {k : Nat} (h : k < 10) : isAsciiDigit (digitChar k) = true := by
  interval_cases k <;> rfl

lemma pad2_digits (n : Nat) : ∀ c ∈ pad2 n, isAsciiDigit c = true := by
  intro c hc
  unfold pad2 at hc
  simp only [List.mem_cons, List.not_mem_nil, or_false] at hc
  rcases hc with rfl | rfl
  all_goals exact isAsciiDigit_digitChar (Nat.mod_lt _ (by omega))

lemma pad4_digits (n : Nat) : ∀ c ∈ pad4 n, isAsciiDigit c = true := by
  intro c hc
  unfold pad4 at hc
  simp only [List.mem_cons, List.not_mem_nil, or_false] at hc
  rcases hc with rfl | rfl | rfl | rfl
  all_goals exact isAsciiDigit_digitChar (Nat.mod_lt _ (by omega))

lemma digitsVal_pad2 {n : Nat} (h : n < 100) : digitsVal (pad2 n) = n := by
  unfold digitsVal pad2
  simp only [List.foldl_cons, List.foldl_nil]
  rw [digitChar_toNat (Nat.mod_lt _ (by omega)), digitChar_toNat (Nat.mod_lt _ (by omega))]
  omega

lemma digitsVal_pad4 {n : Nat} (h : n < 10000) : digitsVal (pad4 n) = n := by
  unfold digitsVal pad4
  simp only [List.foldl_cons, List.foldl_nil]
  rw [digitChar_toNat (Nat.mod_lt _ (by omega)), digitChar_toNat (Nat.mod_lt _ (by omega)),
    digitChar_toNat (Nat.mod_lt _ (by omega)), digitChar_toNat (Nat.mod_lt _ (by omega))]
  omega

lemma readDigits_exact : ∀ (l rest : List Char), (∀ c ∈ l, isAsciiDigit c = true) →
    readDigits l.length (l ++ rest) = (l, rest) := by
  intro l
  induction l with
  | nil => intro rest _h; rfl
  | cons c cs ih =>
    intro rest h
    show readDigits (cs.length + 1) (c :: (cs ++ rest)) = (c :: cs, rest)
    rw [readDigits]
    rw [if_pos (h c (List.mem_cons_self c cs))]
    rw [ih rest (fun x hx => h x (List.mem_cons_of_mem c hx))]

lemma daysInMonth_le_31 (y : Int) (m : Nat) : daysInMonth y m ≤ 31 := by
  unfold daysInMonth
  split
  · split <;> omega
  · split <;> omega

lemma valid_bounds {d : Date} (h : d.Valid) :
    1 ≤ d.year ∧ d.year ≤ 9999 ∧ 1 ≤ d.month ∧ d.month ≤ 12 ∧ 1 ≤ d.day ∧ d.day ≤ 31 := by
  unfold Date.Valid validDate at h
  simp only [Bool.and_eq_true, decide_eq_true_eq] at h
  obtain ⟨⟨⟨⟨⟨h1, h2⟩, h3⟩, h4⟩, h5⟩, h6⟩ := h
  have h7 := daysInMonth_le_31 d.year d.month
  omega

lemma parse_format_roundtrip {d : Date} (h : d.Valid) :
    parseDate (formatDate d) = some d := by
  obtain ⟨h1, h2, h3, h4, h5, h6⟩ := valid_bounds h
  have hd100 : d.day < 100 := by omega
  have hm100 : d.month < 100 := by omega
  have hy : d.year.toNat < 10000 := by omega
  have e1 := readDigits_exact (pad2 d.day)
    ('.' :: (pad2 d.month ++ '.' :: pad4 d.year.toNat)) (pad2_digits d.day)
  rw [show (pad2 d.day).length = 2 from rfl] at e1
  have e2 := readDigits_exact (pad2 d.month) ('.' :: pad4 d.year.toNat) (pad2_digits d.month)
  rw [show (pad2 d.month).length = 2 from rfl] at e2
  have e3 := readDigits_exact (pad4 d.year.toNat) [] (pad4_digits d.year.toNat)
  rw [show (pad4 d.year.toNat).length = 4 from rfl, List.append_nil] at e3
  have hp2 : ∀ n : Nat, (pad2 n).isEmpty = false := fun n => rfl
  have hp4 : ∀ n : Nat, (pad4 n).isEmpty = false := fun n => rfl
  show parseDateChars (pad2 d.day ++ '.' :: (pad2 d.month ++ '.' :: pad4 d.year.toNat)) = some d
  simp only [parseDateChars, e1, e2, e3, hp2, hp4, Bool.false_eq_true, if_false,
    List.isEmpty_nil, if_true, digitsVal_pad2 hd100, digitsVal_pad2 hm100, digitsVal_pad4 hy]
  rw [show Int.ofNat d.year.toNat = d.year from Int.toNat_of_nonneg (by omega)]
  rw [if_pos (show validDate d.year d.month d.day = true from h)]

/-! ## Record construction lemmas -/

lemma mkPhone_ok {p : String} (h : Phone.validate p = true) : mkPhone p = .ok p := by
  unfold mkPhone
  rw [if_pos h]

lemma add_phone_ok (r : Record) {p : String} (h : Phone.validate p = true) :
    r.add_phone p = .ok { r with phones := r.phones ++ [p] } := by
  unfold Record.add_phone
  rw [mkPhone_ok h]
  rfl

lemma phone_validate_ne_empty {p : String} (h : Phone.validate p = true) : p ≠ "" := by
  intro he
  rw [he] at h
  exact absurd h (by decide)

lemma email_validate_ne_empty {e : String} (h : Email.validate e = true) : e ≠ "" := by
  intro he
  rw [he] at h
  exact absurd h (by decide)

lemma address_validate_ne_empty {a : String} (h : Address.validate a = true) : a ≠ "" := by
  intro he
  rw [he] at h
  exact absurd h (by decide)

lemma formatDate_ne_empty (d : Date) : formatDate d ≠ "" := by
  intro he
  have hd : (formatDate d).data = ("" : String).data := congrArg String.data he
  simp [formatDate, formatChars, pad2] at hd

lemma add_email_ok (r : Record) {e : String} (hv : Email.validate e = true)
    (hn : pyStripLower e = e) : r.add_email e = .ok { r with email := some e } := by
  unfold Record.add_email mkEmail
  rw [hn, if_pos hv]
  rfl

lemma add_address_ok (r : Record) {a : String} (hv : Address.validate a = true) :
    r.add_address a = .ok { r with address := some a } := by
  unfold Record.add_address mkAddress
  rw [if_pos hv]
  rfl

lemma add_birthday_format_ok (r : Record) {b : Date} (hv : b.Valid) :
    r.add_birthday (formatDate b) = .ok { r with birthday := some b } := by
  unfold Record.add_birthday mkBirthday
  rw [parse_format_roundtrip hv]
  rfl

lemma foldlM_add_phone : ∀ (ps : List String) (r : Record),
    (∀ p ∈ ps, Phone.validate p = true) →
    ps.foldlM Record.add_phone r = .ok { r with phones := r.phones ++ ps } := by
  intro ps
  induction ps with
  | nil =>
    intro r _h
    rw [List.append_nil]
    rfl
  | cons p ps ih =>
    intro r h
    rw [List.foldlM_cons, add_phone_ok r (h p (List.mem_cons_self p ps))]
    show ps.foldlM Record.add_phone { r with phones := r.phones ++ [p] } = _
    rw [ih _ (fun q hq => h q (List.mem_cons_of_mem p hq))]
    simp

lemma exbind_ok {α β : Type} (a : α) (f : α → Except PyError β) :
    (Except.ok a : Except PyError α) >>= f = f a := rfl

lemma expure_bind {α β : Type} (a : α) (f : α → Except PyError β) :
    (pure a : Except PyError α) >>= f = f a := rfl

lemma truthy_none_eq : truthy none = none := rfl

lemma truthy_some_of_ne {s : String} (h : s ≠ "") : truthy (some s) = some s := by
  simp [truthy, h]

/-- C3: for every record, in every combination of fields (any number of
phones including duplicates, email present or absent, address present or
absent, birthday present or absent), Record.from_dict applied to
Record.to_dict of the record succeeds and reproduces the record exactly:
name, ordered phone list, email, address and birthday are all equal (the
conclusion is equality of whole records).  ValidRecordB is the
construction invariant every record built through the field constructors
satisfies. -/
theorem to_dict_from_dict_roundtrip (r : Record) (h : ValidRecordB r = true) :
    Record.from_dict (Record.to_dict r) = .ok r := by
  obtain ⟨name, phones, email, address, birthday⟩ := r
  unfold ValidRecordB at h
  simp only [Bool.and_eq_true] at h
  obtain ⟨⟨⟨hp, he⟩, ha⟩, hb⟩ := h
  simp only [List.all_eq_true] at hp
  simp only [Record.from_dict, Record.to_dict]
  rw [foldlM_add_phone phones (record_init name) hp]
  simp only [exbind_ok, expure_bind, record_init, List.nil_append]
  cases email with
  | some e =>
    simp only [Bool.and_eq_true, beq_iff_eq] at he
    obtain ⟨hev, hen⟩ := he
    simp only [truthy_some_of_ne (email_validate_ne_empty hev)]
    rw [add_email_ok _ hev hen]
    simp only [exbind_ok, expure_bind]
    cases address with
    | some a =>
      simp only [truthy_some_of_ne (address_validate_ne_empty ha)]
      rw [add_address_ok _ ha]
      simp only [exbind_ok, expure_bind]
      cases birthday with
      | some b =>
        simp only [Option.map_some']
        simp only [truthy_some_of_ne (formatDate_ne_empty b)]
        rw [add_birthday_format_ok _ hb]
        all_goals simp only [exbind_ok, expure_bind]
      | none =>
        simp only [Option.map_none', truthy_none_eq]
    | none =>
      simp only [truthy_none_eq]
      cases birthday with
      | some b =>
        simp only [Option.map_some']
        simp only [truthy_some_of_ne (formatDate_ne_empty b)]
        rw [add_birthday_format_ok _ hb]
        all_goals simp only [exbind_ok, expure_bind]
      | none =>
        simp only [Option.map_none', truthy_none_eq]
  | none =>
    simp only [truthy_none_eq]
    cases address with
    | some a =>
      simp only [truthy_some_of_ne (address_validate_ne_empty ha)]
      rw [add_address_ok _ ha]
      simp only [exbind_ok, expure_bind]
      cases birthday with
      | some b =>
        simp only [Option.map_some']
        simp only [truthy_some_of_ne (formatDate_ne_empty b)]
        rw [add_birthday_format_ok _ hb]
        all_goals simp only [exbind_ok, expure_bind]
      | none =>
        simp only [Option.map_none', truthy_none_eq]
    | none =>
      simp only [truthy_none_eq]
      cases birthday with
      | some b =>
        simp only [Option.map_some']
        simp only [truthy_some_of_ne (formatDate_ne_empty b)]
        rw [add_birthday_format_ok _ hb]
        all_goals simp only [exbind_ok, expure_bind]
      | none =>
        simp only [Option.map_none', truthy_none_eq]

/-- An all-fields-present record with a duplicate phone, used as concrete
input for witnesses. -/
def sampleFull : Record :=
  { name := "Ann"
    phones := ["0931112233", "0931112233"]
    email := some "ann@example.com"
    address := some "Kyiv"
    birthday := some ⟨1990, 1, 2⟩ }

/-- C3 witness: the roundtrip theorem applied at a concrete all-fields
record with a duplicate phone. -/
theorem to_dict_from_dict_roundtrip_witness :
    ValidRecordB sampleFull = true ∧
      Record.from_dict (Record.to_dict sampleFull) = .ok sampleFull :=
  ⟨by decide, to_dict_from_dict_roundtrip sampleFull (by decide)⟩

/-! ## Phone validation lemmas -/

lemma phone_validate_eq (s : String) :
    Phone.validate s = (s.data.length == 10 && s.data.all pyIsDigit) := by
  unfold Phone.validate
  cases h : s.data with
  | nil => rfl
  | cons c cs =>
    simp only [List.isEmpty_cons, Bool.not_false, Bool.true_and]
    exact Bool.and_comm _ _

lemma ascii_digit_is_pyDigit {c : Char} (h : isAsciiDigit c = true) : pyIsDigit c = true := by
  unfold isAsciiDigit at h
  simp only [Bool.and_eq_true, decide_eq_true_eq] at h
  obtain ⟨h1, h2⟩ := h
  rw [Char.le_def] at h1 h2
  have h1n : 48 ≤ c.toNat := h1
  have h2n : c.toNat ≤ 57 := h2
  unfold pyIsDigit
  simp only [Bool.or_eq_true, Bool.and_eq_true, decide_eq_true_eq, beq_iff_eq]
  omega

/-- C4 (counterexample): the claim states that Phone construction succeeds
only for strings of ten ASCII decimal digits; the code uses Python
str.isdigit, which also accepts non-ASCII Unicode digits, so a string of
ten Arabic-Indic digits is accepted although it is not made of ASCII
digits. -/
theorem phone_unicode_digit_counterexample :
    exceptOk (mkPhone "١١١١١١١١١١") = true ∧
      isTenAsciiDigits "١١١١١١١١١١" = false := by
  exact ⟨rfl, rfl⟩

/-- C4 (amended): Phone construction succeeds exactly when the string has
ten characters each of which is a Unicode digit in the sense of Python
str.isdigit; every ten-ASCII-digit string is accepted, and every string of
the wrong length or containing a character that is not a Unicode digit is
rejected.  (The original claim is amended only on non-ASCII digit
characters, which the code accepts.) -/
theorem phone_validate_spec (s : String) :
    (exceptOk (mkPhone s) = (s.data.length == 10 && s.data.all pyIsDigit)) ∧
    (isTenAsciiDigits s = true → exceptOk (mkPhone s) = true) := by
  have h1 : exceptOk (mkPhone s) = Phone.validate s := by
    unfold mkPhone
    split
    · rename_i hv
      simp [exceptOk, hv]
    · rename_i hv
      simp only [Bool.not_eq_true] at hv
      simp [exceptOk, hv]
  constructor
  · rw [h1, phone_validate_eq]
  · intro h
    rw [h1, phone_validate_eq]
    unfold isTenAsciiDigits at h
    simp only [Bool.and_eq_true, List.all_eq_true] at h ⊢
    exact ⟨h.1, fun c hc => ascii_digit_is_pyDigit (h.2 c hc)⟩

/-- C4 witness: the amended theorem applied at a concrete ten-ASCII-digit
string. -/
theorem phone_validate_spec_witness : exceptOk (mkPhone "0931112233") = true :=
  (phone_validate_spec "0931112233").2 (by decide)

/-- C7: for every address book, every today and every negative day count,
get_birthdays_in_days raises ValueError.  The error is the same for every
book, so it is raised before any record is inspected, and since the
embedding is pure the book is unchanged. -/
theorem get_birthdays_negative_days (book : AddressBook) (today : Date) (days : Int)
    (h : days < 0) :
    get_birthdays_in_days book today days =
      .error (.valueError "Number of days cannot be negative.") := by
  unfold get_birthdays_in_days
  rw [if_pos h]

/-- C7 witness: the negative-days theorem applied at days = -1 on a
nonempty book. -/
theorem get_birthdays_negative_days_witness :
    get_birthdays_in_days [sampleFull] ⟨2026, 10, 12⟩ (-1) =
      .error (.valueError "Number of days cannot be negative.") :=
  get_birthdays_negative_days [sampleFull] ⟨2026, 10, 12⟩ (-1) (by decide)

/-- C9: get_upcoming_birthdays is definitionally the call
get_birthdays_in_days(7): the two functions agree on every book and every
current date. -/
theorem upcoming_eq_in_days_7 (book : AddressBook) (today : Date) :
    get_upcoming_birthdays book today = get_birthdays_in_days book today 7 := rfl

/-- C2 (the code, evaluated at the failing input): a record whose birthday
is Feb 29 of a leap year together with a non-leap current year makes
get_birthdays_in_days raise ValueError (day is out of range for month)
from bday.replace(year=today.year), instead of resolving the birthday to a
substitute date and returning a list. -/
theorem feb29_nonleap_raises :
    get_birthdays_in_days
      [{ name := "Ann", phones := [], email := none, address := none,
         birthday := some ⟨2000, 2, 29⟩ }] ⟨2025, 10, 12⟩ 7 =
      .error (.valueError "day is out of range for month") := rfl

/-! ## AddressBook find / update lemmas -/

lemma bookFind_append_of_none (book : AddressBook) (r : Record)
    (h : bookFind book r.name = none) : bookFind (book ++ [r]) r.name = some r := by
  induction book with
  | nil =>
    unfold bookFind
    simp [List.find?]
  | cons x xs ih =>
    unfold bookFind at h ⊢
    rw [List.find?_cons] at h
    cases hx : (x.name == r.name) with
    | true => rw [hx] at h; exact absurd h (by simp)
    | false =>
      rw [hx] at h
      rw [List.cons_append, List.find?_cons, hx]
      exact ih h

lemma bookFind_updateFirst (book : AddressBook) (n : String) (r1 : Record)
    (hs : bookFind book n ≠ none) (hname : r1.name = n) :
    bookFind (updateFirst book n r1) n = some r1 := by
  induction book with
  | nil => exact absurd rfl hs
  | cons x xs ih =>
    unfold updateFirst
    cases hx : (x.name == n) with
    | true =>
      rw [if_pos rfl]
      unfold bookFind
      rw [List.find?_cons, show (r1.name == n) = true from by simp [hname]]
    | false =>
      rw [if_neg (by simp_all)]
      unfold bookFind at ih hs ⊢
      rw [List.find?_cons, hx] at hs ⊢
      exact ih hs

/-- C8 (counterexample): the claim states that Record construction rejects
an empty or whitespace-only name; in the code Name is a bare Field
subclass with no validation, so Record construction is total: the empty
string yields a record whose stored name is empty, and adding it to an
empty book stores a record keyed by the empty name. -/
theorem record_empty_name_counterexample :
    (record_init "").name = "" ∧
      (add_record [] (record_init "")).map Record.name = [""] :=
  ⟨rfl, rfl⟩

/-- C8 (amended): Record (and Name) construction performs no validation of
the name: every string, including the empty or a whitespace-only one, is
accepted, the record stores the name unchanged, and adding the record to
any book makes it findable under exactly that string.  (Non-empty names
are only guaranteed for records created through the command parser, which
produces whitespace-delimited tokens.) -/
theorem record_name_unvalidated (s : String) (book : AddressBook) :
    (record_init s).name = s ∧
      bookFind (add_record book (record_init s)) s = some (record_init s) := by
  refine ⟨rfl, ?_⟩
  unfold add_record
  cases h : bookFind book (record_init s).name with
  | none => exact bookFind_append_of_none book (record_init s) h
  | some x =>
    exact bookFind_updateFirst book s (record_init s) (by rw [show (record_init s).name = s from rfl] at h; rw [h]; simp) rfl

/-! ## Search lemmas -/

lemma searchGo_sublist (ql : String) : ∀ book : List Record,
    (searchGo ql book).Sublist book := by
  intro book
  induction book with
  | nil => exact List.Sublist.refl []
  | cons r rs ih =>
    show (searchGo ql (r :: rs)).Sublist (r :: rs)
    rw [searchGo]
    repeat' split
    all_goals first
      | exact List.Sublist.cons₂ r ih
      | exact List.Sublist.cons r ih

/-- C5: for every address book and every query, search returns a sublist
of the book: the records appear in the book's insertion order and each
book entry occurs at most as often in the result as in the book; in
particular, when the book's names are distinct (as dict keys always are),
each record is returned at most once, however many of its fields match. -/
theorem search_once_in_book_order (book : AddressBook) (q : String) :
    (search book q).Sublist book ∧
    ((book.map Record.name).Nodup → ((search book q).map Record.name).Nodup) := by
  refine ⟨searchGo_sublist (pyLower q) book, fun h => ?_⟩
  exact ((searchGo_sublist (pyLower q) book).map Record.name).nodup h

/-- C5 witness: a book of two records where the query matches three fields
(name, email, address) of the first record; the theorem yields a
duplicate-free result. -/
theorem search_once_in_book_order_witness :
    ((search [sampleFull,
      { name := "Bob", phones := ["0000000000"], email := none, address := none,
        birthday := none }] "ann").map Record.name).Nodup :=
  (search_once_in_book_order [sampleFull,
      { name := "Bob", phones := ["0000000000"], email := none, address := none,
        birthday := none }] "ann").2 (by decide)

/-! ## edit_phone lemmas -/

lemma find?_beq_self {old : String} : ∀ {l : List String}, old ∈ l →
    l.find? (fun p => p == old) = some old := by
  intro l
  induction l with
  | nil => intro h; simp at h
  | cons x xs ih =>
    intro h
    rw [List.find?_cons]
    cases hx : (x == old) with
    | true =>
      rw [beq_iff_eq] at hx
      simp [hx]
    | false =>
      simp only [cond_false]
      apply ih
      rcases List.mem_cons.mp h with rfl | hm
      · simp at hx
      · exact hm

lemma find_phone_none_iff (r : Record) (old : String) :
    r.find_phone old = none ↔ old ∉ r.phones := by
  unfold Record.find_phone
  rw [List.find?_eq_none]
  constructor
  · intro h hm
    exact absurd (by simp : (old == old) = true) (h old hm)
  · intro h x hx hbeq
    rw [beq_iff_eq] at hbeq
    subst hbeq
    exact h hx

lemma set_listIndex_decomp (old new : String) : ∀ l : List String, old ∈ l →
    ∃ l1 l2, l = l1 ++ old :: l2 ∧ old ∉ l1 ∧
      l.set (listIndex old l) new = l1 ++ new :: l2 := by
  intro l
  induction l with
  | nil => intro h; simp at h
  | cons x xs ih =>
    intro h
    by_cases hx : (x == old) = true
    · rw [beq_iff_eq] at hx
      subst hx
      refine ⟨[], xs, rfl, by simp, ?_⟩
      simp [listIndex]
    · have hm : old ∈ xs := by
        rcases List.mem_cons.mp h with rfl | hm
        · exact absurd (by simp) hx
        · exact hm
      obtain ⟨l1, l2, he, hn, hs⟩ := ih hm
      refine ⟨x :: l1, l2, by rw [List.cons_append, he], ?_, ?_⟩
      · intro hmem
        rcases List.mem_cons.mp hmem with rfl | hmm
        · exact hx (by simp)
        · exact hn hmm
      · rw [show listIndex old (x :: xs) = listIndex old xs + 1 from by
          rw [show listIndex old (x :: xs) =
            if (x == old) = true then 0 else listIndex old xs + 1 from rfl, if_neg hx]]
        rw [List.set_cons_succ, hs, List.cons_append]

/-- C6: edit_phone raises a not-found ValueError when no stored phone
equals the old value and an invalid-phone ValueError when the old value is
present but the new value fails validation (the embedding is pure, so in
both failure cases no updated record exists and the phone list is
untouched); when the old value is present and the new value is valid, the
first occurrence of the old phone is replaced in place: the phones before
it and after it are unchanged and only that position now holds the new
value, with all other record fields untouched. -/
theorem edit_phone_spec (r : Record) (old new : String) :
    (old ∉ r.phones →
      r.edit_phone old new =
        .error (.valueError ("Phone number " ++ old ++ " not found"))) ∧
    (old ∈ r.phones → Phone.validate new = false →
      r.edit_phone old new =
        .error (.valueError
          "New phone number must contain 10 digits. Use format like 0931112233.")) ∧
    (old ∈ r.phones → Phone.validate new = true →
      ∃ l1 l2, r.phones = l1 ++ old :: l2 ∧ old ∉ l1 ∧
        r.edit_phone old new = .ok { r with phones := l1 ++ new :: l2 }) := by
  refine ⟨?_, ?_, ?_⟩
  · intro h
    unfold Record.edit_phone
    rw [(find_phone_none_iff r old).mpr h]
  · intro hm hv
    unfold Record.edit_phone Record.find_phone
    rw [find?_beq_self hm, hv]
    rfl
  · intro hm hv
    obtain ⟨l1, l2, he, hn, hs⟩ := set_listIndex_decomp old new r.phones hm
    refine ⟨l1, l2, he, hn, ?_⟩
    unfold Record.edit_phone Record.find_phone
    rw [find?_beq_self hm, hv]
    simp only [if_true]
    rw [hs]

/-- C6 witness: the success case of the edit_phone theorem at a concrete
record: the second phone is replaced in place. -/
theorem edit_phone_spec_witness :
    ∃ l1 l2, (["1112223330", "4445556660", "1112223330"] : List String) =
        l1 ++ "4445556660" :: l2 ∧ "4445556660" ∉ l1 ∧
      Record.edit_phone
        { name := "Ann", phones := ["1112223330", "4445556660", "1112223330"],
          email := none, address := none, birthday := none } "4445556660" "0999999999" =
        .ok { name := "Ann", phones := (l1 ++ "0999999999" :: l2),
              email := none, address := none, birthday := none } :=
  (edit_phone_spec
    { name := "Ann", phones := ["1112223330", "4445556660", "1112223330"],
      email := none, address := none, birthday := none } "4445556660" "0999999999").2.2
    (by decide) (by decide)

/-! ## Birthday-window lemmas -/

lemma exbind_error {α β : Type} (e : PyError) (f : α → Except PyError β) :
    (Except.error e : Except PyError α) >>= f = .error e := rfl

lemma collectB_mem (today target : Date) : ∀ (rs : List Record) (l : List BEntry),
    collectB today target rs = .ok l → ∀ e ∈ l, ∃ r, r ∈ rs ∧ ∃ b occ,
      r.birthday = some b ∧ occurrenceOf b today = .ok occ ∧ occ = target ∧
      e.name = r.name ∧ e.congratulation_date = formatDate (weekendAdjust occ) := by
  intro rs
  induction rs with
  | nil =>
    intro l h e he
    rw [collectB] at h
    injection h with h
    subst h
    simp at he
  | cons r rs ih =>
    intro l h e he
    rw [collectB] at h
    cases hb : r.birthday with
    | none =>
      simp only [hb] at h
      obtain ⟨r2, hr2, rest⟩ := ih l h e he
      exact ⟨r2, List.mem_cons_of_mem r hr2, rest⟩
    | some b =>
      simp only [hb] at h
      cases ho : occurrenceOf b today with
      | error err =>
        rw [ho, exbind_error] at h
        simp at h
      | ok occ =>
        rw [ho, exbind_ok] at h
        cases hc : collectB today target rs with
        | error err =>
          rw [hc, exbind_error] at h
          simp at h
        | ok rest =>
          rw [hc, exbind_ok] at h
          by_cases ht : occ = target
          · rw [if_pos ht] at h
            injection h with h
            subst h
            rcases List.mem_cons.mp he with rfl | hm
            · exact ⟨r, List.mem_cons_self r rs, b, occ, hb, ho, ht, rfl, rfl⟩
            · obtain ⟨r2, hr2, rest2⟩ := ih rest hc e hm
              exact ⟨r2, List.mem_cons_of_mem r hr2, rest2⟩
          · rw [if_neg ht] at h
            injection h with h
            subst h
            obtain ⟨r2, hr2, rest2⟩ := ih rest hc e he
            exact ⟨r2, List.mem_cons_of_mem r hr2, rest2⟩

/-- C1: whenever get_birthdays_in_days returns a list, that list is sorted
by contact name under the Python (case-sensitive, code-point) string
order, and every returned entry comes from a record of the book whose
birthday occurrence (this year, or next year when the this-year occurrence
is already past) equals today + n days exactly; the reported
congratulation date is that occurrence moved to Monday when it falls on a
Saturday (+2 days) or Sunday (+1 day) and is otherwise the occurrence
itself.  The record itself — in particular its stored birthday — is not
modified: the embedding is pure, and the entry only carries the name and
the rendered congratulation date. -/
theorem birthdays_in_days_spec (book : AddressBook) (today : Date) (days : Int)
    (l : List BEntry) (h : get_birthdays_in_days book today days = .ok l) :
    List.Pairwise (fun a b : BEntry => strLeB a.name b.name = true) l ∧
    ∀ e ∈ l, ∃ r, r ∈ book ∧ ∃ b occ, r.birthday = some b ∧
      occurrenceOf b today = .ok occ ∧ occ = addDays today days ∧
      e.name = r.name ∧ e.congratulation_date = formatDate (weekendAdjust occ) := by
  unfold get_birthdays_in_days at h
  split at h
  · simp at h
  · cases hc : collectB today (addDays today days) book with
    | error err =>
      rw [hc, exbind_error] at h
      simp at h
    | ok l0 =>
      rw [hc, exbind_ok] at h
      injection h with h
      subst h
      constructor
      · haveI ht : IsTotal BEntry (fun a b => strLeB a.name b.name = true) :=
          ⟨fun a b => strLeB_total a.name b.name⟩
        haveI htr : IsTrans BEntry (fun a b => strLeB a.name b.name = true) :=
          ⟨fun a b c => strLeB_trans a.name b.name c.name⟩
        exact List.sorted_insertionSort _ l0
      · intro e he
        have hmem : e ∈ l0 := (List.perm_insertionSort _ l0).mem_iff.mp he
        exact collectB_mem today (addDays today days) book l0 hc e hmem

/-- A record with only a birthday (Oct 19), used as concrete input for the
birthday-window witness: from Monday 2026-10-12, the occurrence in 7 days
is Monday 2026-10-19, reported unshifted. -/
def sampleBob : Record :=
  { name := "Bob", phones := [], email := none, address := none,
    birthday := some ⟨1990, 10, 19⟩ }

/-- C1 witness: the birthday-window theorem applied at a one-record book
with today = 2026-10-12 and n = 7. -/
theorem birthdays_in_days_spec_witness :
    List.Pairwise (fun a b : BEntry => strLeB a.name b.name = true)
      [⟨"Bob", "19.10.2026"⟩] ∧
    ∀ e ∈ ([⟨"Bob", "19.10.2026"⟩] : List BEntry), ∃ r, r ∈ [sampleBob] ∧
      ∃ b occ, r.birthday = some b ∧
        occurrenceOf b ⟨2026, 10, 12⟩ = .ok occ ∧ occ = addDays ⟨2026, 10, 12⟩ 7 ∧
        e.name = r.name ∧ e.congratulation_date = formatDate (weekendAdjust occ) :=
  birthdays_in_days_spec [sampleBob] ⟨2026, 10, 12⟩ 7 [⟨"Bob", "19.10.2026"⟩] rfl

/-! ## add_contact lemmas -/

lemma bookFind_append_first (suf : List Record) (r : Record) :
    ∀ pre : List Record, (∀ x ∈ pre, x.name ≠ r.name) →
    bookFind (pre ++ r :: suf) r.name = some r := by
  intro pre
  induction pre with
  | nil =>
    intro _h
    unfold bookFind
    rw [List.nil_append, List.find?_cons]
    simp
  | cons x xs ih =>
    intro hpre
    unfold bookFind at ih ⊢
    rw [List.cons_append, List.find?_cons]
    rw [show (x.name == r.name) = false from by
      simp [hpre x (List.mem_cons_self x xs)]]
    simp only [cond_false]
    exact ih (fun y hy => hpre y (List.mem_cons_of_mem x hy))

lemma updateFirst_append (suf : List Record) (r r1 : Record) :
    ∀ pre : List Record, (∀ x ∈ pre, x.name ≠ r.name) →
    updateFirst (pre ++ r :: suf) r.name r1 = pre ++ r1 :: suf := by
  intro pre
  induction pre with
  | nil =>
    intro _h
    show updateFirst (r :: suf) r.name r1 = r1 :: suf
    unfold updateFirst
    rw [if_pos (by simp)]
  | cons x xs ih =>
    intro hpre
    show updateFirst (x :: (xs ++ r :: suf)) r.name r1 = x :: (xs ++ r1 :: suf)
    unfold updateFirst
    rw [if_neg (by simp [hpre x (List.mem_cons_self x xs)])]
    rw [ih (fun y hy => hpre y (List.mem_cons_of_mem x hy))]

/-- C10: when the book already stores a record under the given name (the
record shown at its position between pre and suf, the earlier records
bearing other names, as dict keys guarantee) and the phone argument is
valid, the add_contact command does not replace the record: the result
book keeps every other record unchanged and, at the same position, the
same record with only the valid phone appended — its email, address,
birthday and previously stored phones untouched — and the handler returns
Contact updated, not Contact added. -/
theorem add_contact_updates_existing (pre suf : List Record) (r : Record) (P : String)
    (hpre : ∀ x ∈ pre, x.name ≠ r.name) (hP : Phone.validate P = true) :
    add_contact [r.name, P] (pre ++ r :: suf) =
      (pre ++ { r with phones := r.phones ++ [P] } :: suf, .ok "Contact updated.") := by
  simp only [add_contact]
  rw [bookFind_append_first suf r pre hpre]
  simp only
  rw [if_neg (phone_validate_ne_empty hP)]
  rw [mkPhone_ok hP]
  simp only
  rw [updateFirst_append suf r _ pre hpre]

/-- C10 witness: the add_contact theorem applied at a two-record book in
which the second record is the one named by the command. -/
theorem add_contact_updates_existing_witness :
    add_contact ["Ann", "0999999999"] ([sampleBob] ++ sampleFull :: []) =
      ([sampleBob] ++
        { sampleFull with phones := sampleFull.phones ++ ["0999999999"] } :: [],
       .ok "Contact updated.") :=
  add_contact_updates_existing [sampleBob] [] sampleFull "0999999999"
    (by decide) (by decide)
